import Mathlib

/-!
Verification of the godating daily-quota subsystem and the account
registration entity, following the repository's specification.

The repository's source under scrutiny consists of the program entry point
(`main.go`, containing `InitializeCronJobDailyQuota`) and
`internal/core/entities/auths/auth_entities_impl.go`
(`SaveAccountEntities`).  The quota policy/service/store code
(`computeReset`, `tryConsume`, `consume`, `resetOne`, `resetAllDue`) is
declared by the spec but its implementation files are not present in the
source tree, so those operations are modelled from the spec's own words,
as marked in each doc comment.
-/

/-! ## Quota data model -/

/-- Modelled from the spec: the per-user `QuotaRecord` (spec §3).  The
quota implementation files are not in the source tree; fields follow the
spec's data model.  Timestamps are integer seconds; counters are integers
(`remaining` is claimed non-negative only as an invariant, so it is `Int`,
not `Nat`, to keep the invariant substantive). -/
structure QuotaRecord where
  userId : Nat
  remaining : Int
  capacity : Int
  windowStart : Int
  windowEnd : Int
  lastResetAt : Int
deriving Repr, DecidableEq

/-- Modelled from the spec: the fixed replenishment interval, 24 hours in
seconds (spec §3: "fixed interval, e.g. 24h"). -/
def quotaInterval : Int := 86400

/-- Modelled from the spec: `computeReset(record, now)` (spec §4.2): if
`now >= record.windowEnd`, returns a record with `remaining = capacity`,
`windowStart = now`, `windowEnd = now + interval`, `lastResetAt = now`;
otherwise returns the input unchanged. -/
def computeReset (r : QuotaRecord) (now : Int) : QuotaRecord :=
  if r.windowEnd ≤ now then
    { r with remaining := r.capacity, windowStart := now,
             windowEnd := now + quotaInterval, lastResetAt := now }
  else r

/-- Denial reasons for a consumption attempt (spec §4.2). -/
inductive DenyReason where
  | InsufficientQuota
deriving Repr, DecidableEq

/-- Outcome of a consumption attempt (spec §4.2). -/
inductive ConsumeOutcome where
  | Allowed
  | Denied (reason : DenyReason)
deriving Repr, DecidableEq

/-- Modelled from the spec: `tryConsume(record, now, amount)` (spec §4.2):
first applies `computeReset` semantics implicitly if the window has
elapsed, then, if `remaining >= amount`, decrements and returns `Allowed`;
else returns `Denied(InsufficientQuota)`. -/
def tryConsume (r : QuotaRecord) (now : Int) (amount : Int) :
    QuotaRecord × ConsumeOutcome :=
  let r' := computeReset r now
  if amount ≤ r'.remaining then
    ({ r' with remaining := r'.remaining - amount }, ConsumeOutcome.Allowed)
  else
    (r', ConsumeOutcome.Denied DenyReason.InsufficientQuota)

/-- Modelled from the spec: lazy creation of a record on first need with
`remaining = capacity` and a fresh window (spec §3 lifecycle). -/
def lazyCreate (userId : Nat) (capacity : Int) (now : Int) : QuotaRecord :=
  { userId := userId, remaining := capacity, capacity := capacity,
    windowStart := now, windowEnd := now + quotaInterval, lastResetAt := now }

/-- Modelled from the spec: one transition of a `QuotaRecord` under the
quota operations.  A `consume` step applies `tryConsume` with an amount the
caller has validated (positive and at most `capacity`, spec §4.2); a
`reset` step applies `computeReset`, which is what `resetOne` and each
per-record iteration of `resetAllDue` persist (spec §4.3). -/
inductive QuotaStep : QuotaRecord → QuotaRecord → Prop where
  | consume (r : QuotaRecord) (now amount : Int)
      (hpos : 1 ≤ amount) (hcap : amount ≤ r.capacity) :
      QuotaStep r (tryConsume r now amount).1
  | reset (r : QuotaRecord) (now : Int) :
      QuotaStep r (computeReset r now)

/-- Modelled from the spec: the reachable `QuotaRecord` states — records
created lazily with a non-negative capacity (spec §3) and closed under the
quota operations. -/
inductive QuotaReachable : QuotaRecord → Prop where
  | init (userId : Nat) (capacity now : Int) (hcap : 0 ≤ capacity) :
      QuotaReachable (lazyCreate userId capacity now)
  | step {r r' : QuotaRecord} :
      QuotaReachable r → QuotaStep r r' → QuotaReachable r'

/-! ## Quota lemmas -/

lemma computeReset_capacity (r : QuotaRecord) (now : Int) :
    (computeReset r now).capacity = r.capacity := by
  unfold computeReset
  split <;> rfl

lemma computeReset_invariant (r : QuotaRecord) (now : Int)
    (h : 0 ≤ r.remaining ∧ r.remaining ≤ r.capacity) :
    0 ≤ (computeReset r now).remaining ∧
      (computeReset r now).remaining ≤ (computeReset r now).capacity := by
  unfold computeReset
  split
  · constructor
    · exact le_trans h.1 h.2
    · exact le_refl _
  · exact h

lemma tryConsume_invariant (r : QuotaRecord) (now amount : Int)
    (hpos : 1 ≤ amount)
    (h : 0 ≤ r.remaining ∧ r.remaining ≤ r.capacity) :
    0 ≤ (tryConsume r now amount).1.remaining ∧
      (tryConsume r now amount).1.remaining ≤ (tryConsume r now amount).1.capacity := by
  have hr := computeReset_invariant r now h
  unfold tryConsume
  simp only
  split
  · rename_i hle
    constructor
    · simpa using hle
    · have : (computeReset r now).remaining - amount ≤ (computeReset r now).remaining := by
        omega
      exact le_trans this hr.2
  · exact hr

/-- C1: every reachable `QuotaRecord` state, produced by any sequence of
lazy creation, consume, and reset operations, satisfies
`0 ≤ remaining ≤ capacity`. -/
theorem quota_invariant (r : QuotaRecord) (h : QuotaReachable r) :
    0 ≤ r.remaining ∧ r.remaining ≤ r.capacity := by
  induction h with
  | init userId capacity now hcap =>
      exact ⟨hcap, le_refl _⟩
  | step hreach hstep ih =>
      cases hstep with
      | consume now amount hpos hcap =>
          exact tryConsume_invariant _ now amount hpos ih
      | reset now =>
          exact computeReset_invariant _ now ih

/-- C1 witness: a concrete reachable record (created with capacity 5, then
one unit consumed inside the window) satisfies the invariant. -/
theorem quota_invariant_witness :
    0 ≤ (tryConsume (lazyCreate 1 5 0) 10 1).1.remaining ∧
      (tryConsume (lazyCreate 1 5 0) 10 1).1.remaining ≤
        (tryConsume (lazyCreate 1 5 0) 10 1).1.capacity :=
  quota_invariant _
    (QuotaReachable.step
      (QuotaReachable.init 1 5 0 (by decide))
      (QuotaStep.consume (lazyCreate 1 5 0) 10 1 (by decide) (by decide)))

/-- C3: when `now` is at or past `windowEnd` and the caller-validated
`amount` satisfies `1 ≤ amount ≤ capacity`, `tryConsume` first resets the
record (fresh window starting at `now`) and then decrements from full
capacity, returning `Allowed`. -/
theorem tryConsume_after_window (r : QuotaRecord) (now amount : Int)
    (hwin : r.windowEnd ≤ now) (hpos : 1 ≤ amount) (hcap : amount ≤ r.capacity) :
    (tryConsume r now amount).2 = ConsumeOutcome.Allowed ∧
      (tryConsume r now amount).1.remaining = r.capacity - amount ∧
      (tryConsume r now amount).1.windowStart = now ∧
      (tryConsume r now amount).1.windowEnd = now + quotaInterval ∧
      (tryConsume r now amount).1.lastResetAt = now := by
  unfold tryConsume computeReset
  simp [hwin, hcap]

/-- C3 witness: the spec's Scenario C — a record with `remaining = 0`,
`capacity = 5`, `windowEnd = t` consumed at `t + 1` second yields `Allowed`
with `remaining = 4` (here `t = 0`). -/
theorem tryConsume_after_window_witness :
    (tryConsume ⟨7, 0, 5, -86400, 0, -86400⟩ 1 1).2 = ConsumeOutcome.Allowed ∧
      (tryConsume ⟨7, 0, 5, -86400, 0, -86400⟩ 1 1).1.remaining = 5 - 1 ∧
      (tryConsume ⟨7, 0, 5, -86400, 0, -86400⟩ 1 1).1.windowStart = 1 ∧
      (tryConsume ⟨7, 0, 5, -86400, 0, -86400⟩ 1 1).1.windowEnd = 1 + quotaInterval ∧
      (tryConsume ⟨7, 0, 5, -86400, 0, -86400⟩ 1 1).1.lastResetAt = 1 :=
  tryConsume_after_window ⟨7, 0, 5, -86400, 0, -86400⟩ 1 1
    (by decide) (by decide) (by decide)

lemma computeReset_noop (r : QuotaRecord) (now : Int) (h : now < r.windowEnd) :
    computeReset r now = r := by
  unfold computeReset
  rw [if_neg (by omega)]

/-- C6: `computeReset` is idempotent across a window boundary: if `now`
lies before the window end of the once-reset record, resetting again is a
no-op; in particular, when `now < windowEnd` the record is returned
unchanged. -/
theorem computeReset_idempotent (r : QuotaRecord) (now : Int)
    (h : now < (computeReset r now).windowEnd) :
    computeReset (computeReset r now) now = computeReset r now ∧
      (now < r.windowEnd → computeReset r now = r) :=
  ⟨computeReset_noop (computeReset r now) now h,
   fun h2 => computeReset_noop r now h2⟩

/-- C6 witness: at a concrete record strictly inside its window, the
double application agrees with the single one and the single application
is the identity. -/
theorem computeReset_idempotent_witness :
    computeReset (computeReset ⟨3, 2, 5, 0, 100, 0⟩ 5) 5 =
        computeReset ⟨3, 2, 5, 0, 100, 0⟩ 5 ∧
      (5 < (⟨3, 2, 5, 0, 100, 0⟩ : QuotaRecord).windowEnd →
        computeReset ⟨3, 2, 5, 0, 100, 0⟩ 5 = ⟨3, 2, 5, 0, 100, 0⟩) :=
  computeReset_idempotent ⟨3, 2, 5, 0, 100, 0⟩ 5 (by decide)

/-! ## Serialized consumption (C7) -/

/-- Modelled from the spec: a linearized execution of `consume(userId, 1)`
calls against one user's record (spec §5: per-user fetch-modify-write is
serialized, so any concurrent batch is equivalent to some sequential
order).  Each call applies `tryConsume` with `amount = 1` at its time and
the next call sees the persisted record. -/
def consumeSeq (r : QuotaRecord) (times : List Int) :
    QuotaRecord × List ConsumeOutcome :=
  match times with
  | [] => (r, [])
  | t :: ts =>
    let fst := tryConsume r t 1
    let rest := consumeSeq fst.1 ts
    (rest.1, fst.2 :: rest.2)

/-- Whether an outcome is `Allowed`. -/
def isAllowed : ConsumeOutcome → Bool
  | ConsumeOutcome.Allowed => true
  | ConsumeOutcome.Denied _ => false

/-- Number of `Allowed` outcomes in a batch. -/
def countAllowed (os : List ConsumeOutcome) : Nat :=
  os.countP isAllowed

/-- Number of `Denied` outcomes in a batch. -/
def countDenied (os : List ConsumeOutcome) : Nat :=
  os.countP (fun o => !(isAllowed o))

lemma tryConsume_within (r : QuotaRecord) (t : Int) (hwin : t < r.windowEnd) :
    tryConsume r t 1 =
      if 1 ≤ r.remaining then
        ({ r with remaining := r.remaining - 1 }, ConsumeOutcome.Allowed)
      else (r, ConsumeOutcome.Denied DenyReason.InsufficientQuota) := by
  unfold tryConsume
  rw [computeReset_noop r t hwin]

lemma consumeSeq_spec (times : List Int) : ∀ (r : QuotaRecord) (k : Nat),
    r.remaining = (k : Int) → k ≤ times.length →
    (∀ t ∈ times, t < r.windowEnd) →
    countAllowed (consumeSeq r times).2 = k ∧
    countDenied (consumeSeq r times).2 = times.length - k ∧
    (consumeSeq r times).1.remaining = 0 ∧
    (consumeSeq r times).1.windowEnd = r.windowEnd := by
  induction times with
  | nil =>
      intro r k hrem hk hwin
      have hk0 : k = 0 := Nat.le_zero.mp hk
      subst hk0
      simpa [consumeSeq, countAllowed, countDenied] using hrem
  | cons t ts ih =>
      intro r k hrem hk hwin
      have hwt : t < r.windowEnd := hwin t (List.mem_cons_self t ts)
      have hwts : ∀ u ∈ ts, u < r.windowEnd :=
        fun u hu => hwin u (List.mem_cons_of_mem t hu)
      cases k with
      | zero =>
          have h0 : ¬ (1 ≤ r.remaining) := by rw [hrem]; decide
          have hs : tryConsume r t 1 =
              (r, ConsumeOutcome.Denied DenyReason.InsufficientQuota) := by
            rw [tryConsume_within r t hwt, if_neg h0]
          obtain ⟨ha, hd, hrm, hwe⟩ := ih r 0 hrem (Nat.zero_le _) hwts
          unfold consumeSeq
          rw [hs]
          refine ⟨?_, ?_, ?_, ?_⟩
          · simpa [countAllowed, List.countP_cons, isAllowed] using ha
          · simp [countDenied, List.countP_cons, isAllowed] at hd ⊢
            omega
          · simpa using hrm
          · simpa using hwe
      | succ k' =>
          have h1 : 1 ≤ r.remaining := by rw [hrem]; omega
          have hs : tryConsume r t 1 =
              ({ r with remaining := r.remaining - 1 }, ConsumeOutcome.Allowed) := by
            rw [tryConsume_within r t hwt, if_pos h1]
          have hrem' : ({ r with remaining := r.remaining - 1 } : QuotaRecord).remaining
              = (k' : Int) := by
            show r.remaining - 1 = (k' : Int)
            rw [hrem]
            omega
          have hk' : k' ≤ ts.length := by
            simp only [List.length_cons] at hk
            omega
          obtain ⟨ha, hd, hrm, hwe⟩ :=
            ih { r with remaining := r.remaining - 1 } k' hrem' hk' hwts
          unfold consumeSeq
          rw [hs]
          refine ⟨?_, ?_, ?_, ?_⟩
          · simp [countAllowed, List.countP_cons, isAllowed] at ha ⊢
            omega
          · simp [countDenied, List.countP_cons, isAllowed] at hd ⊢
            omega
          · simpa using hrm
          · simpa using hwe

/-- C7: in any linearized order of `N` `consume(userId, 1)` calls against
a record with `remaining = k < N` whose window covers all the call times,
exactly `k` calls are `Allowed`, `N - k` are `Denied(InsufficientQuota)`,
and the final `remaining` is `0`. -/
theorem consume_serialized_counting (N k : Nat) (r : QuotaRecord)
    (times : List Int) (hlen : times.length = N)
    (hrem : r.remaining = (k : Int)) (hkN : k < N)
    (hwin : ∀ t ∈ times, t < r.windowEnd) :
    countAllowed (consumeSeq r times).2 = k ∧
    countDenied (consumeSeq r times).2 = N - k ∧
    (consumeSeq r times).1.remaining = 0 := by
  have hk : k ≤ times.length := by omega
  obtain ⟨ha, hd, hrm, _⟩ := consumeSeq_spec times r k hrem hk hwin
  exact ⟨ha, by rw [hd, hlen], hrm⟩

/-- C7 witness: four serialized unit consumptions against a record with
`remaining = 2` inside its window give 2 `Allowed`, 2 `Denied`, and final
`remaining = 0`. -/
theorem consume_serialized_counting_witness :
    countAllowed (consumeSeq ⟨1, 2, 5, 0, 100, 0⟩ [1, 2, 3, 4]).2 = 2 ∧
    countDenied (consumeSeq ⟨1, 2, 5, 0, 100, 0⟩ [1, 2, 3, 4]).2 = 4 - 2 ∧
    (consumeSeq ⟨1, 2, 5, 0, 100, 0⟩ [1, 2, 3, 4]).1.remaining = 0 :=
  consume_serialized_counting 4 2 ⟨1, 2, 5, 0, 100, 0⟩ [1, 2, 3, 4]
    (by decide) (by decide) (by decide)
    (by intro t ht; fin_cases ht <;> decide)

/-! ## The daily-quota cron job (`InitializeCronJobDailyQuota`, main.go) -/

/-- Log lines emitted by the daily-quota cron job body registered in
`InitializeCronJobDailyQuota` (main.go lines 111-119). -/
inductive CronLog where
  | executingUsecase
  | errorExecuting (msg : String)
  | successExecuting
deriving Repr, DecidableEq

/-- The body of the closure registered by `InitializeCronJobDailyQuota`:
it logs that it is executing, invokes
`ExecuteAutoUpdateDailyQuotaUsecase` (whose outcome is the argument,
since the usecase implementation is not in the source tree), logs either
the error or the success, and returns normally in both cases.  The return
value is the firing's log lines; being a total function models that a
firing never panics and never stops the scheduler. -/
def dailyQuotaJobFiring (usecaseResult : Except String Unit) : List CronLog :=
  CronLog.executingUsecase ::
    (match usecaseResult with
     | Except.error e => [CronLog.errorExecuting e]
     | Except.ok _ => [CronLog.successExecuting])

/-- The recurring schedule: the cron library invokes the registered
closure once per interval; a run of the schedule is the job body applied
to each firing's usecase outcome in order. -/
def dailyQuotaSchedule (results : List (Except String Unit)) :
    List (List CronLog) :=
  results.map dailyQuotaJobFiring

/-- C4: when some firing's usecase invocation returns an error, that
firing logs the error and completes normally, and every later firing
still occurs exactly as it would have: the schedule is uninterrupted. -/
theorem cron_error_logged_schedule_continues
    (pre post : List (Except String Unit)) (e : String) :
    dailyQuotaSchedule (pre ++ Except.error e :: post) =
      dailyQuotaSchedule pre ++
        [CronLog.executingUsecase, CronLog.errorExecuting e] ::
          dailyQuotaSchedule post := by
  simp [dailyQuotaSchedule, dailyQuotaJobFiring]

/-! ## The registered schedule expression (C8) -/

/-- A cron job registration: `InitializeCronJobDailyQuota` (main.go lines
108-125) calls `AddFunc` with a single schedule expression; this captures
what is registered. -/
structure CronRegistration where
  spec : String
deriving DecidableEq

/-- The registration performed by `InitializeCronJobDailyQuota`: the
schedule expression passed to `AddFunc` on main.go line 111. -/
def initializeCronJobDailyQuota : CronRegistration :=
  { spec := "@every 24h" }

/-- Model of the cron library's duration units, restricted to the
whole-second units `h`, `m`, `s` (sub-second units are not needed for the
expressions compared here): the unit's length in seconds plus the rest of
the input. -/
def parseDurUnit : List Char → Option (Nat × List Char)
  | 'h' :: rest => some (3600, rest)
  | 'm' :: rest => some (60, rest)
  | 's' :: rest => some (1, rest)
  | _ => none

/-- Model of decimal-digit parsing in the duration syntax: the parsed
value plus the rest of the input; fails when no digit is present. -/
def parseDigits (cs : List Char) : Option (Nat × List Char) :=
  let ds := cs.takeWhile Char.isDigit
  if ds.isEmpty then none
  else some (ds.foldl (fun a c => 10 * a + (c.toNat - 48)) 0,
             cs.dropWhile Char.isDigit)

/-- Model of the duration grammar `(digits unit)+` used by `@every`
expressions, accumulating total seconds; `fuel` bounds the recursion by
the input length. -/
def parseDurComponents (fuel : Nat) (cs : List Char) (acc : Nat) : Option Nat :=
  match fuel with
  | 0 => none
  | fuel' + 1 =>
    match parseDigits cs with
    | none => none
    | some (n, cs1) =>
      match parseDurUnit cs1 with
      | none => none
      | some (mult, cs2) =>
        match cs2 with
        | [] => some (acc + n * mult)
        | _ => parseDurComponents fuel' cs2 (acc + n * mult)

/-- Model of the cron library's handling of an `@every <duration>`
schedule expression: the interval in seconds between firings, or `none`
when the expression is not of that shape. -/
def parseEverySpec (s : String) : Option Nat :=
  match s.toList with
  | '@' :: 'e' :: 'v' :: 'e' :: 'r' :: 'y' :: ' ' :: rest =>
      parseDurComponents (rest.length + 1) rest 0
  | _ => none

/-- C8: the schedule expression registered for the daily-quota job is the
production interval of 24 hours (86400 seconds), not the one-minute
testing interval mentioned in the adjacent source comment. -/
theorem daily_quota_cron_interval_is_24h :
    parseEverySpec initializeCronJobDailyQuota.spec = some 86400 ∧
      parseEverySpec initializeCronJobDailyQuota.spec ≠ some 60 := by
  constructor
  · rfl
  · intro h
    exact absurd h (by decide)

/-! ## Account registration (`SaveAccountEntities`,
`internal/core/entities/auths/auth_entities_impl.go`) -/

/-- The fields of `auths.AccountDto` consumed by `SaveAccountEntities`
(the domain package itself is not in the source tree). -/
structure AccountDto where
  username : String
  email : String
  password : String
deriving Repr, DecidableEq

/-- `record.AccountRecord` as built on lines 39-44 of the entity file. -/
structure AccountRecord where
  username : String
  passwordHash : String
  email : String
  verified : Bool
deriving Repr, DecidableEq

/-- The row returned by `CreateAccountToDB`, with the fields read on
lines 52-59 of the entity file. -/
structure AccountRow where
  accountID : Nat
  username : String
  passwordHash : String
  email : String
  createdAt : Int
  updatedAt : Int
deriving Repr, DecidableEq

/-- `auths.Accounts`, the result type of `SaveAccountEntities`. -/
structure Accounts where
  accountId : Nat
  username : String
  email : String
  password : String
  createAt : Int
  updateAt : Int
deriving Repr, DecidableEq

/-- The zero value `auths.Accounts{}` returned on every error path. -/
def Accounts.zero : Accounts :=
  { accountId := 0, username := "", email := "", password := "",
    createAt := 0, updateAt := 0 }

/-- A call made to the account repository, recorded in order. -/
inductive RepoCall where
  | isExistByEmail (email : String)
  | isExistByUsername (username : String)
  | createAccount (rec : AccountRecord)
deriving Repr, DecidableEq

/-- The repository interface `repository.AccountRepository` as used by
`SaveAccountEntities` (its implementation is not in the source tree, so
each method is an oracle). -/
structure AccountRepository where
  emailExists : String → Bool
  usernameExists : String → Bool
  create : AccountRecord → Except String AccountRow

/-- `SaveAccountEntities` (entity file lines 24-61), with the validator
(`validate.Struct`, third-party) and `common.HashingPassword` (not in the
source tree) as oracles.  Returns the Go pair `(auths.Accounts, error)`
together with the ordered list of repository calls made. -/
def SaveAccountEntities (validate : AccountDto → Option String)
    (hash : String → String) (repo : AccountRepository) (dto : AccountDto) :
    Accounts × Option String × List RepoCall :=
  match validate dto with
  | some err => (Accounts.zero, some err, [])
  | none =>
    let emailIsExist := repo.emailExists dto.email
    let usernameIsExist := repo.usernameExists dto.username
    let checks := [RepoCall.isExistByEmail dto.email,
                   RepoCall.isExistByUsername dto.username]
    if emailIsExist || usernameIsExist then
      (Accounts.zero, some "email or username already exists", checks)
    else
      let records : AccountRecord :=
        { username := dto.username, passwordHash := hash dto.password,
          email := dto.email, verified := false }
      match repo.create records with
      | Except.error e =>
          (Accounts.zero, some e, checks ++ [RepoCall.createAccount records])
      | Except.ok account =>
          ({ accountId := account.accountID, username := account.username,
             email := account.email, password := account.passwordHash,
             createAt := account.createdAt, updateAt := account.updatedAt },
           none, checks ++ [RepoCall.createAccount records])

/-- C9: when struct validation of the DTO fails, `SaveAccountEntities`
returns the zero-valued `Accounts` with the validation error and makes no
repository call at all. -/
theorem saveAccount_validation_error (validate : AccountDto → Option String)
    (hash : String → String) (repo : AccountRepository) (dto : AccountDto)
    (err : String) (hval : validate dto = some err) :
    SaveAccountEntities validate hash repo dto = (Accounts.zero, some err, []) := by
  unfold SaveAccountEntities
  rw [hval]

/-- C9 witness: a concrete DTO rejected by the validator yields the zero
`Accounts`, the validation error, and an empty call trace. -/
theorem saveAccount_validation_error_witness :
    SaveAccountEntities (fun _ => some "field Email is required")
        (fun p => p)
        ⟨fun _ => false, fun _ => false, fun _ => Except.error "db down"⟩
        ⟨"alice", "", "pw"⟩ =
      (Accounts.zero, some "field Email is required", []) :=
  saveAccount_validation_error (fun _ => some "field Email is required")
    (fun p => p)
    ⟨fun _ => false, fun _ => false, fun _ => Except.error "db down"⟩
    ⟨"alice", "", "pw"⟩ "field Email is required" rfl

/-- C10: for a DTO that passes validation but whose email or username
already exists, `SaveAccountEntities` returns the zero-valued `Accounts`
with the error "email or username already exists", and the repository
trace holds only the two existence checks — `CreateAccountToDB` is never
called. -/
theorem saveAccount_duplicate_rejected (validate : AccountDto → Option String)
    (hash : String → String) (repo : AccountRepository) (dto : AccountDto)
    (hval : validate dto = none)
    (hex : repo.emailExists dto.email = true ∨
           repo.usernameExists dto.username = true) :
    SaveAccountEntities validate hash repo dto =
      (Accounts.zero, some "email or username already exists",
        [RepoCall.isExistByEmail dto.email,
         RepoCall.isExistByUsername dto.username]) ∧
    ∀ rec : AccountRecord, RepoCall.createAccount rec ∉
      (SaveAccountEntities validate hash repo dto).2.2 := by
  have hor : (repo.emailExists dto.email || repo.usernameExists dto.username) = true := by
    cases hex with
    | inl h => simp [h]
    | inr h => simp [h]
  have heq : SaveAccountEntities validate hash repo dto =
      (Accounts.zero, some "email or username already exists",
        [RepoCall.isExistByEmail dto.email,
         RepoCall.isExistByUsername dto.username]) := by
    unfold SaveAccountEntities
    rw [hval]
    simp only [hor, if_true]
  refine ⟨heq, ?_⟩
  intro rec
  rw [heq]
  simp

/-- C10 witness: a valid DTO whose email already exists is rejected with
the duplicate error and the trace holds no `createAccount` call. -/
theorem saveAccount_duplicate_rejected_witness :
    SaveAccountEntities (fun _ => none) (fun p => p)
        ⟨fun e => e = "a@b.c", fun _ => false, fun _ => Except.error "db down"⟩
        ⟨"alice", "a@b.c", "pw"⟩ =
      (Accounts.zero, some "email or username already exists",
        [RepoCall.isExistByEmail "a@b.c", RepoCall.isExistByUsername "alice"]) ∧
    ∀ rec : AccountRecord, RepoCall.createAccount rec ∉
      (SaveAccountEntities (fun _ => none) (fun p => p)
        ⟨fun e => e = "a@b.c", fun _ => false, fun _ => Except.error "db down"⟩
        ⟨"alice", "a@b.c", "pw"⟩).2.2 :=
  saveAccount_duplicate_rejected (fun _ => none) (fun p => p)
    ⟨fun e => e = "a@b.c", fun _ => false, fun _ => Except.error "db down"⟩
    ⟨"alice", "a@b.c", "pw"⟩ rfl (Or.inl (by simp))
